import Mathlib

/-!
Shallow embedding of the core of the `bluestream_acm200` integration:
the route-response parser, the device client operations and the polling
coordinator, translated from
`custom_components/bluestream_acm200/client.py` and
`custom_components/bluestream_acm200/coordinator.py`.

Machine text is modelled as Lean `String`/`List Char`; Python `int` as
`Int`; a Python `dict[int, int]` as an insertion-ordered association
list with update-in-place semantics; Python exceptions as explicit
`Except` values; the network as a deterministic transport oracle
`String → Except TransportError String` standing for
`ACM200Client._send_and_read`.
-/

/-! ## Python string primitives -/

/-- Python whitespace (`str.strip`, regex `\s`): ASCII whitespace and
control separators plus the common Unicode space characters. -/
def pySpaceChar (c : Char) : Bool :=
  c == ' ' || c == '\t' || c == '\n' || c == '\r' || c == '\x0b' || c == '\x0c' ||
  c == '\x1c' || c == '\x1d' || c == '\x1e' || c == '\x1f' ||
  c == '\x85' || c == '\xa0' || c == '\u1680' ||
  ('\u2000' ≤ c && c ≤ '\u200a') || c == '\u2028' || c == '\u2029' ||
  c == '\u202f' || c == '\u205f' || c == '\u3000'

/-- Line terminators recognised by Python `str.splitlines`. -/
def pyLineBreakChar (c : Char) : Bool :=
  c == '\n' || c == '\r' || c == '\x0b' || c == '\x0c' ||
  c == '\x1c' || c == '\x1d' || c == '\x1e' ||
  c == '\x85' || c == '\u2028' || c == '\u2029'

/-- Worker for `pySplitlines`: accumulates the current line (reversed). -/
def pySplitlinesAux : List Char → List Char → List (List Char)
  | acc, [] => if acc.isEmpty then [] else [acc.reverse]
  | acc, '\r' :: '\n' :: rest => acc.reverse :: pySplitlinesAux [] rest
  | acc, c :: rest =>
    if pyLineBreakChar c then acc.reverse :: pySplitlinesAux [] rest
    else pySplitlinesAux (c :: acc) rest

/-- Python `str.splitlines()`: `"a\nb" ↦ ["a","b"]`, `"a\n" ↦ ["a"]`,
`"" ↦ []`, `"\n" ↦ [""]`; `\r\n` counts as one terminator. -/
def pySplitlines (s : String) : List String :=
  (pySplitlinesAux [] s.toList).map String.mk

/-- Python `str.strip()` with no argument: remove leading and trailing
whitespace. -/
def pyStrip (s : String) : String :=
  String.mk (((s.toList.dropWhile pySpaceChar).reverse.dropWhile pySpaceChar).reverse)

/-- Python `str.upper()` (the strings it is applied to here are ASCII). -/
def pyUpper (s : String) : String :=
  String.mk (s.toList.map Char.toUpper)

/-- Digit tail of a Python integer literal: further digits, with single
underscores allowed between digits. -/
def pyDigitsLoop : Nat → List Char → Option Nat
  | acc, [] => some acc
  | acc, '_' :: c :: rest =>
    if c.isDigit then pyDigitsLoop (acc * 10 + (c.toNat - '0'.toNat)) rest else none
  | acc, c :: rest =>
    if c.isDigit then pyDigitsLoop (acc * 10 + (c.toNat - '0'.toNat)) rest else none

/-- A nonempty run of decimal digits (Python decimal integer literal body). -/
def pyIntOfDigits : List Char → Option Nat
  | [] => none
  | c :: rest => if c.isDigit then pyDigitsLoop (c.toNat - '0'.toNat) rest else none

/-- Python `int(s)` as a value: surrounding whitespace stripped, optional
sign, decimal digits; `none` models `ValueError`. -/
def pyIntOpt (s : String) : Option Int :=
  let cs := ((s.toList.dropWhile pySpaceChar).reverse.dropWhile pySpaceChar).reverse
  match cs with
  | '-' :: rest => (pyIntOfDigits rest).map (fun n => -(n : Int))
  | '+' :: rest => (pyIntOfDigits rest).map (fun n => (n : Int))
  | _ => (pyIntOfDigits cs).map (fun n => (n : Int))

/-- Python `f"{n:03d}"`: decimal rendering left-padded with zeros to a
total width of 3, the sign included in the width. -/
def pad3 (n : Int) : String :=
  let sign : String := if n < 0 then "-" else ""
  let digits : String := toString n.natAbs
  sign ++ String.mk (List.replicate (3 - (sign.length + digits.length)) '0') ++ digits

/-! ## Python `dict[int, int]`

An insertion-ordered association list: updating an existing key keeps
its position, a new key is appended.  This is exactly CPython's visible
`dict` behaviour for the operations the source uses (`routes[k] = v`,
`k in routes`, `routes[k]`, `len(routes)`). -/

/-- The `RoutingSnapshot` representation: `dict[int, int]`. -/
abbrev Routes := List (Int × Int)

/-- `routes[k] = v`. -/
def dinsert : Routes → Int → Int → Routes
  | [], k, v => [(k, v)]
  | p :: rest, k, v => if p.1 == k then (k, v) :: rest else p :: dinsert rest k v

/-- `routes[k]` (as an `Option`; also `routes.get(k)`). -/
def dlookup : Routes → Int → Option Int
  | [], _ => none
  | p :: rest, k => if p.1 == k then some p.2 else dlookup rest k

/-- `k in routes`. -/
def dmem (m : Routes) (k : Int) : Bool :=
  (dlookup m k).isSome

/-! ## A small backtracking regex engine

Just enough of Python `re` (with `re.IGNORECASE`) for the two patterns
in `ROUTE_RE_LIST`: case-insensitive literals, character classes,
greedy `?`, greedy and lazy single-character stars (`\s*`, `0*`, `.*?`),
alternation, word boundaries `\b`, and numbered capture groups.
Backtracking priority and leftmost search order follow Python. -/

/-- Regex abstract syntax (specialised: every star has a
single-character body, as in the source patterns). -/
inductive RE where
  | eps : RE
  | cls (p : Char → Bool) : RE
  | lit (s : List Char) : RE
  | cat (a b : RE) : RE
  | alt (a b : RE) : RE
  | opt (a : RE) : RE
  | star (p : Char → Bool) : RE
  | starL (p : Char → Bool) : RE
  | grp (i : Nat) (a : RE) : RE
  | wb : RE

/-- Capture state: groups 1 and 2 (the only groups in the patterns). -/
structure Caps where
  g1 : Option (List Char) := none
  g2 : Option (List Char) := none

/-- Record a capture. -/
def setCap (caps : Caps) (i : Nat) (v : List Char) : Caps :=
  if i == 1 then { caps with g1 := some v } else { caps with g2 := some v }

/-- Case-insensitive literal match; returns the new previous-character
and the remaining input. -/
def litMatch : List Char → Option Char → List Char → Option (Option Char × List Char)
  | [], prev, cs => some (prev, cs)
  | _ :: _, _, [] => none
  | l :: ls, _, c :: rest =>
    if l.toLower == c.toLower then litMatch ls (some c) rest else none

/-- Word character for `\b` (ASCII `[A-Za-z0-9_]`; the patterns are ASCII). -/
def pyWordChar (c : Char) : Bool :=
  c.isAlphanum || c == '_'

/-- Is the current position a word boundary, given the previous character? -/
def atWordBoundary (prev : Option Char) (cs : List Char) : Bool :=
  (match prev with | none => false | some c => pyWordChar c) !=
  (match cs with | [] => false | c :: _ => pyWordChar c)

/-- Greedy single-character star: consume as much as possible, then
backtrack character by character. -/
def matStar (p : Char → Bool) (prev : Option Char) (cs : List Char)
    (k : Option Char → List Char → Option Caps) : Option Caps :=
  match cs with
  | [] => k prev []
  | c :: rest =>
    if p c then (matStar p (some c) rest k) <|> k prev cs
    else k prev cs

/-- Lazy single-character star: consume as little as possible. -/
def matStarL (p : Char → Bool) (prev : Option Char) (cs : List Char)
    (k : Option Char → List Char → Option Caps) : Option Caps :=
  (k prev cs) <|>
    match cs with
    | [] => none
    | c :: rest => if p c then matStarL p (some c) rest k else none

/-- The characters `re` consumed between entering with `cs` and leaving
with suffix `cs2`. -/
def consumedBetween (cs cs2 : List Char) : List Char :=
  cs.take (cs.length - cs2.length)

/-- CPS backtracking matcher.  The continuation receives the capture
state, the previous character (for `\b`) and the remaining input;
alternatives are tried in Python's priority order. -/
def mat : RE → Caps → Option Char → List Char →
    (Caps → Option Char → List Char → Option Caps) → Option Caps
  | .eps, caps, prev, cs, k => k caps prev cs
  | .cls p, caps, _, cs, k =>
    match cs with
    | [] => none
    | c :: rest => if p c then k caps (some c) rest else none
  | .lit s, caps, prev, cs, k =>
    match litMatch s prev cs with
    | none => none
    | some (p2, rest) => k caps p2 rest
  | .cat a b, caps, prev, cs, k =>
    mat a caps prev cs (fun caps2 p2 cs2 => mat b caps2 p2 cs2 k)
  | .alt a b, caps, prev, cs, k =>
    (mat a caps prev cs k) <|> (mat b caps prev cs k)
  | .opt a, caps, prev, cs, k =>
    (mat a caps prev cs k) <|> k caps prev cs
  | .star p, caps, prev, cs, k => matStar p prev cs (fun p2 cs2 => k caps p2 cs2)
  | .starL p, caps, prev, cs, k => matStarL p prev cs (fun p2 cs2 => k caps p2 cs2)
  | .grp i a, caps, prev, cs, k =>
    mat a caps prev cs (fun caps2 p2 cs2 =>
      k (setCap caps2 i (consumedBetween cs cs2)) p2 cs2)
  | .wb, caps, prev, cs, k =>
    if atWordBoundary prev cs then k caps prev cs else none

/-- `re.search` worker: try to match at the current position, else
advance one character (tracking the previous character for `\b`). -/
def searchFrom (re : RE) : Option Char → List Char → Option Caps
  | prev, cs =>
    (mat re {} prev cs (fun caps _ _ => some caps)) <|>
      match cs with
      | [] => none
      | c :: rest => searchFrom re (some c) rest

/-- `rx.search(line)`: leftmost match, returning the capture state. -/
def reSearch (re : RE) (s : String) : Option Caps :=
  searchFrom re none s.toList

/-! ## The registered route patterns (`ROUTE_RE_LIST`) -/

/-- Case-insensitive literal (the patterns are compiled with
`re.IGNORECASE`). -/
def reLit (s : String) : RE :=
  .lit s.toList

/-- Right-nested sequencing of regex parts. -/
def reSeq : List RE → RE
  | [] => .eps
  | [r] => r
  | r :: rest => .cat r (reSeq rest)

/-- `[0-9]{1,3}` with greedy counting (prefers 3, then 2, then 1). -/
def digit13 : RE :=
  .cat (.cls Char.isDigit) (.opt (.cat (.cls Char.isDigit) (.opt (.cls Char.isDigit))))

/-- `0*`. -/
def zeroStar : RE :=
  .star (fun c => c == '0')

/-- `.` without `re.DOTALL`: any character but a newline. -/
def pyDot (c : Char) : Bool :=
  c != '\n'

/-- First pattern of `ROUTE_RE_LIST`:
`\bOUT(?:PUT)?\s*0*([0-9]{1,3}).*?\b(?:FROM|FR)\b.*?\bIN(?:PUT)?\s*0*([0-9]{1,3}|AUTO)\b`
(ignore-case). -/
def routeRe1 : RE :=
  reSeq [.wb, reLit "OUT", .opt (reLit "PUT"), .star pySpaceChar, zeroStar,
    .grp 1 digit13, .starL pyDot, .wb, .alt (reLit "FROM") (reLit "FR"), .wb,
    .starL pyDot, .wb, reLit "IN", .opt (reLit "PUT"), .star pySpaceChar, zeroStar,
    .grp 2 (.alt digit13 (reLit "AUTO")), .wb]

/-- Second pattern of `ROUTE_RE_LIST`:
`\bOUTPUT\s*0*([0-9]{1,3}).*?\bFROM\b.*?\bINPUT\s*0*([0-9]{1,3}|AUTO)\b`
(ignore-case). -/
def routeRe2 : RE :=
  reSeq [.wb, reLit "OUTPUT", .star pySpaceChar, zeroStar,
    .grp 1 digit13, .starL pyDot, .wb, reLit "FROM", .wb,
    .starL pyDot, .wb, reLit "INPUT", .star pySpaceChar, zeroStar,
    .grp 2 (.alt digit13 (reLit "AUTO")), .wb]

/-- `ROUTE_RE_LIST`, in source order. -/
def ROUTE_RE_LIST : List RE :=
  [routeRe1, routeRe2]

/-- `m.group(1), m.group(2)` of `rx.search(line)` (both groups are
inside the mandatory part of each pattern, so a match captures both). -/
def rxExtract (re : RE) (line : String) : Option (String × String) :=
  match reSearch re line with
  | none => none
  | some caps =>
    match caps.g1, caps.g2 with
    | some a, some b => some (String.mk a, String.mk b)
    | _, _ => none

/-! ## `ACM200Client._parse_routes` -/

/-- The decision the inner loop body of `_parse_routes` makes for one
pattern on one (stripped, nonempty) line: the pair it would store, if
any.  Mirrors: search; `int(out_s)` guarded by `try/except`; the
`AUTO` skip; `int(in_s)` guarded by `try/except`; the positivity guard. -/
def patternPair (line : String) (rx : RE) : Option (Int × Int) :=
  match rxExtract rx line with
  | none => none
  | some (out_s, in_s) =>
    match pyIntOpt out_s with
    | none => none
    | some out_id =>
      if pyUpper in_s == "AUTO" then none
      else
        match pyIntOpt in_s with
        | none => none
        | some in_id =>
          if 0 < out_id ∧ 0 < in_id then some (out_id, in_id) else none

/-- Effect of one pattern on the routes dict (`routes[out_id] = in_id`
when the loop body stores). -/
def stepPattern (m : Routes) (line : String) (rx : RE) : Routes :=
  match patternPair line rx with
  | some p => dinsert m p.1 p.2
  | none => m

/-- Effect of one raw line: strip, skip when empty, then the inner
`for rx in ROUTE_RE_LIST` loop (note the source has no `break`: both
patterns can store on the same line). -/
def stepLine (m : Routes) (raw : String) : Routes :=
  let line := pyStrip raw
  if line == "" then m
  else ROUTE_RE_LIST.foldl (fun acc rx => stepPattern acc line rx) m

/-- `ACM200Client._parse_routes`. -/
def parse_routes (text : String) : Routes :=
  (pySplitlines text).foldl stepLine []

/-! ## Exception taxonomy, and `_parse_routes` with explicit raising

`parse_routesExc` re-traces `_parse_routes` threading Python exceptions
as values: `int()` may raise `ValueError`, and the source catches
exactly `ValueError` around each conversion.  The other operations of
the body (`splitlines`, `strip`, `search`, `group`, `upper`, dict
store) cannot raise. -/

/-- Transport-level failures `_send_and_read` can raise. -/
inductive TransportError where
  | connectionFailure : TransportError
  | timeoutError : TransportError
  | otherError : TransportError
deriving DecidableEq, Repr

/-- Python exceptions reaching the client layer. -/
inductive PyExc where
  | valueError (msg : String) : PyExc
  | transportExc (e : TransportError) : PyExc
deriving DecidableEq, Repr

/-- `int(s)`, raising `ValueError` on malformed text. -/
def pyIntExc (s : String) : Except PyExc Int :=
  match pyIntOpt s with
  | some n => .ok n
  | none => .error (.valueError "invalid literal for int() with base 10")

/-- Inner loop body with explicit exceptions; `except ValueError:
continue` becomes catching exactly `.valueError`. -/
def stepPatternExc (m : Routes) (line : String) (rx : RE) : Except PyExc Routes :=
  match rxExtract rx line with
  | none => .ok m
  | some (out_s, in_s) =>
    match pyIntExc out_s with
    | .error (.valueError _) => .ok m
    | .error e => .error e
    | .ok out_id =>
      if pyUpper in_s == "AUTO" then .ok m
      else
        match pyIntExc in_s with
        | .error (.valueError _) => .ok m
        | .error e => .error e
        | .ok in_id =>
          if 0 < out_id ∧ 0 < in_id then .ok (dinsert m out_id in_id) else .ok m

/-- The `for rx in ROUTE_RE_LIST` loop with explicit exceptions. -/
def foldPatternsExc (line : String) : Routes → List RE → Except PyExc Routes
  | m, [] => .ok m
  | m, rx :: rest =>
    match stepPatternExc m line rx with
    | .error e => .error e
    | .ok m2 => foldPatternsExc line m2 rest

/-- One raw line with explicit exceptions. -/
def stepLineExc (m : Routes) (raw : String) : Except PyExc Routes :=
  let line := pyStrip raw
  if line == "" then .ok m
  else foldPatternsExc line m ROUTE_RE_LIST

/-- The `for line in text.splitlines()` loop with explicit exceptions. -/
def foldLinesExc : Routes → List String → Except PyExc Routes
  | m, [] => .ok m
  | m, l :: rest =>
    match stepLineExc m l with
    | .error e => .error e
    | .ok m2 => foldLinesExc m2 rest

/-- `_parse_routes` with every potentially-raising operation explicit. -/
def parse_routesExc (text : String) : Except PyExc Routes :=
  foldLinesExc [] (pySplitlines text)

/-! ## `ACM200Client` operations

The transport oracle stands for `_send_and_read`: for a given command
it either returns the response text or raises a transport error.  The
device is deterministic within one poll cycle, so one function models
all sends of that cycle.  Each operation also returns the list of
commands it actually sent, in order. -/

/-- The `_send_and_read` oracle. -/
abbrev Transport := String → Except TransportError String

/-- `ACM200Client.switch_route(output, input_)`: validate both ids,
format `f"OUT {output:03d} FR {input_:03d}"`, send it; a transport
error propagates (there is no handler in the source). -/
def switch_route (tr : Transport) (output input_ : Int) :
    Except PyExc Unit × List String :=
  if output ≤ 0 then (.error (.valueError "output must be >= 1"), [])
  else if input_ ≤ 0 then (.error (.valueError "input must be >= 1"), [])
  else
    let cmd := "OUT " ++ pad3 output ++ " FR " ++ pad3 input_
    match tr cmd with
    | .ok _ => (.ok (), [cmd])
    | .error e => (.error (.transportExc e), [cmd])

/-- The bulk-query command spellings, in source priority order. -/
def bulkCommands : List String :=
  ["OUT 000 STATUS", "STATUS", "OUT000STATUS", "OUT000 STATUS"]

/-- The `for cmd in (...)` loop of `get_routes_bulk`: a raising send is
caught (`except Exception`, logged) and the next spelling is tried; a
non-empty parse returns immediately; the loop falls through to `{}`. -/
def bulkGo (tr : Transport) : List String → Routes
  | [] => []
  | c :: rest =>
    match tr c with
    | .error _ => bulkGo tr rest
    | .ok text =>
      let routes := parse_routes text
      if routes.isEmpty then bulkGo tr rest else routes

/-- `ACM200Client.get_routes_bulk`. -/
def get_routes_bulk (tr : Transport) : Routes :=
  bulkGo tr bulkCommands

/-- The `for cmd in (...)` loop of `get_route_for_output`: a raising
send is caught and the next spelling tried; `output in routes` returns
`routes[output]`; the loop falls through to `None`. -/
def getRouteGo (tr : Transport) (output : Int) : List String → Option Int × List String
  | [] => (none, [])
  | c :: rest =>
    match tr c with
    | .error _ =>
      let r := getRouteGo tr output rest
      (r.1, c :: r.2)
    | .ok text =>
      let routes := parse_routes text
      match dlookup routes output with
      | some v => (some v, [c])
      | none =>
        let r := getRouteGo tr output rest
        (r.1, c :: r.2)

/-- `ACM200Client.get_route_for_output(output)`: non-positive ids
return `None` up front, before any command is sent. -/
def get_route_for_output (tr : Transport) (output : Int) : Option Int × List String :=
  if output ≤ 0 then (none, [])
  else getRouteGo tr output
    ["OUT " ++ pad3 output ++ " STATUS", "OUT" ++ pad3 output ++ "STATUS"]

/-! ## `ACM200Coordinator._async_update_data` -/

/-- The typed failure `_async_update_data` raises to the scheduler. -/
inductive UpdateFailedE where
  | updateFailed (msg : String) : UpdateFailedE
deriving DecidableEq, Repr

/-- Python `range(1, n + 1)`. -/
def pyRange1 (n : Int) : List Int :=
  (List.range n.toNat).map (fun (k : Nat) => (k : Int) + 1)

/-- The gap-filling loop `for out_id in range(1, num_outputs + 1)`:
skip outputs already present (no query), otherwise query the single
output and merge a resolved value; also returns the ids queried, in
order. -/
def gapFill (tr : Transport) : Routes → List Int → Routes × List Int
  | routes, [] => (routes, [])
  | routes, out_id :: rest =>
    if dmem routes out_id then gapFill tr routes rest
    else
      match (get_route_for_output tr out_id).1 with
      | some v =>
        let r := gapFill tr (dinsert routes out_id v) rest
        (r.1, out_id :: r.2)
      | none =>
        let r := gapFill tr routes rest
        (r.1, out_id :: r.2)

/-- `ACM200Coordinator._async_update_data`.  The source wraps the body
in `try/except Exception` re-raising `UpdateFailed`; every operation
the body performs (`get_routes_bulk`, `get_route_for_output`) catches
its own exceptions and is total here, so no exception can reach that
handler and both branches produce a successful result. -/
def coordinatorUpdate (tr : Transport) (num_outputs : Int) :
    Except UpdateFailedE (Routes × List Int) :=
  let routes := get_routes_bulk tr
  if 0 < num_outputs ∧ (routes.length : Int) < num_outputs then
    .ok (gapFill tr routes (pyRange1 num_outputs))
  else
    .ok (routes, [])

/-! ## The exclusive-slot discipline of `_send_and_read`

`_send_and_read` runs `async with self._lock:` around open → write →
read → close (the `finally` that closes the writer is inside the
lock).  We model one execution as its sequence of atomic events, an
`asyncio.Lock` as the usual mutual-exclusion discipline on acquire and
release, and two concurrent executions as an arbitrary order-preserving
interleaving of their event sequences. -/

/-- The two concurrent operations. -/
inductive TaskId where
  | first : TaskId
  | second : TaskId
deriving DecidableEq, Repr

/-- Atomic events of one `_send_and_read` execution. -/
inductive Ev where
  | acquire (t : TaskId) : Ev
  | openConn (t : TaskId) : Ev
  | writeCmd (t : TaskId) : Ev
  | readResp (t : TaskId) : Ev
  | closeConn (t : TaskId) : Ev
  | release (t : TaskId) : Ev
deriving DecidableEq, Repr

/-- Event sequence of one `_send_and_read` call: lock, open, write,
read (skipped when the read step fails), then — on every path, via
`finally` and `async with` — close and release. -/
def sendSteps (t : TaskId) (ok : Bool) : List Ev :=
  [.acquire t, .openConn t, .writeCmd t] ++
    (if ok then [.readResp t] else []) ++
    [.closeConn t, .release t]

/-- Worker for `merges`, structurally recursive on a fuel bound. -/
def mergesF : Nat → List Ev → List Ev → List (List Ev)
  | 0, xs, ys => [xs ++ ys]
  | _ + 1, [], ys => [ys]
  | _ + 1, x :: xs, [] => [x :: xs]
  | n + 1, x :: xs, y :: ys =>
    (mergesF n xs (y :: ys)).map (x :: ·) ++ (mergesF n (x :: xs) ys).map (y :: ·)

/-- All order-preserving interleavings of two event sequences. -/
def merges (xs ys : List Ev) : List (List Ev) :=
  mergesF (xs.length + ys.length) xs ys

/-- `asyncio.Lock` discipline: acquire only when free, release only by
the holder. -/
def lockRespecting : Option TaskId → List Ev → Bool
  | _, [] => true
  | holder, e :: rest =>
    match e, holder with
    | .acquire t, none => lockRespecting (some t) rest
    | .acquire _, some _ => false
    | .release t, some t2 => if t == t2 then lockRespecting none rest else false
    | .release _, none => false
    | _, h => lockRespecting h rest

/-- Does the first occurrence of `a` come strictly before the first
occurrence of `b` (both occurring)? -/
def evBefore (a b : Ev) : List Ev → Bool
  | [] => false
  | e :: rest =>
    if e == a then rest.contains b
    else if e == b then false
    else evBefore a b rest

/-- The serialization property: one operation's connection closes
before the other's opens. -/
def serialized (tr : List Ev) : Bool :=
  evBefore (.closeConn .first) (.openConn .second) tr ||
    evBefore (.closeConn .second) (.openConn .first) tr

/-! ## Definitions following the spec's words (for refinement claims) -/

/-- Modelled from the spec: "returns the first non-empty parse result;
returns an empty result if every spelling yields nothing". -/
def spec_firstNonEmptyParse : List Routes → Routes
  | [] => []
  | r :: rest => if r.isEmpty then spec_firstNonEmptyParse rest else r

/-! ## Derived views of the parser -/

/-- The pairs one raw line stores, in pattern order (derived view of
`stepLine`). -/
def linePairs (raw : String) : List (Int × Int) :=
  let line := pyStrip raw
  if line == "" then [] else ROUTE_RE_LIST.filterMap (patternPair line)

/-- All pairs a response text stores, in line-then-pattern order. -/
def textPairs (text : String) : List (Int × Int) :=
  (pySplitlines text).flatMap linePairs

/-! ## Dictionary lemmas -/

theorem dlookup_dinsert (m : Routes) (k v o : Int) :
    dlookup (dinsert m k v) o = if k == o then some v else dlookup m o := by
  induction m with
  | nil => simp [dinsert, dlookup]
  | cons p rest ih =>
    simp only [dinsert]
    by_cases hpk : (p.1 == k) = true
    · have hk : p.1 = k := by simpa using hpk
      by_cases hko : (k == o) = true
      · simp [dlookup, hpk, hko]
      · simp [dlookup, hpk, hko, hk]
    · by_cases hpo : (p.1 == o) = true
      · have hpo2 : p.1 = o := by simpa using hpo
        have hk2 : p.1 ≠ k := by simpa using hpk
        have hko : (k == o) = false := by
          rw [beq_eq_false_iff_ne]
          intro h
          exact hk2 (by rw [hpo2, h])
        simp [dlookup, hpk, hpo, hko]
      · simp [dlookup, hpk, hpo, ih]

theorem mem_dinsert {m : Routes} {k v : Int} {p : Int × Int}
    (h : p ∈ dinsert m k v) : p ∈ m ∨ p = (k, v) := by
  induction m with
  | nil => simpa [dinsert] using h
  | cons q rest ih =>
    by_cases hq : q.1 == k
    · rcases (by simpa [dinsert, hq] using h : p = (k, v) ∨ p ∈ rest) with h1 | h1
      · exact Or.inr h1
      · exact Or.inl (List.mem_cons_of_mem _ h1)
    · rcases (by simpa [dinsert, hq] using h : p = q ∨ p ∈ dinsert rest k v) with h1 | h1
      · exact Or.inl (by simp [h1])
      · rcases ih h1 with h2 | h2
        · exact Or.inl (List.mem_cons_of_mem _ h2)
        · exact Or.inr h2

theorem dmem_dinsert (m : Routes) (k v o : Int) :
    dmem (dinsert m k v) o = ((k == o) || dmem m o) := by
  by_cases hko : k = o <;> simp [dmem, dlookup_dinsert, hko]

theorem dlookup_mem {m : Routes} {k v : Int} (h : dlookup m k = some v) :
    (k, v) ∈ m := by
  induction m with
  | nil => simp [dlookup] at h
  | cons p rest ih =>
    by_cases hp : (p.1 == k) = true
    · have h1 : p.1 = k := by simpa using hp
      have h2 : p.2 = v := by
        have h3 := h
        simp [dlookup, hp] at h3
        exact h3
      have h4 : p = (k, v) := by
        cases p
        simp_all
      rw [← h4]
      exact List.mem_cons_self _ _
    · exact List.mem_cons_of_mem _ (ih (by simpa [dlookup, hp] using h))

/-! ## The parser as a fold of stores -/

/-- Store a list of pairs into the dict, in order. -/
def storeAll (m : Routes) (ps : List (Int × Int)) : Routes :=
  ps.foldl (fun acc p => dinsert acc p.1 p.2) m

theorem mem_storeAll {m : Routes} {ps : List (Int × Int)} {p : Int × Int}
    (h : p ∈ storeAll m ps) : p ∈ m ∨ p ∈ ps := by
  induction ps generalizing m with
  | nil => exact Or.inl (by simpa [storeAll] using h)
  | cons q rest ih =>
    rcases ih (by simpa [storeAll] using h) with h1 | h1
    · rcases mem_dinsert h1 with h2 | h2
      · exact Or.inl h2
      · exact Or.inr (by simp [h2])
    · exact Or.inr (List.mem_cons_of_mem _ h1)

theorem dlookup_storeAll (ps : List (Int × Int)) (m : Routes) (o : Int) :
    dlookup (storeAll m ps) o =
      ((ps.reverse.find? (fun p => p.1 == o)).map Prod.snd).or (dlookup m o) := by
  induction ps generalizing m with
  | nil => simp [storeAll]
  | cons q rest ih =>
    simp only [storeAll, List.foldl_cons, List.reverse_cons]
    rw [List.find?_append]
    have step : dlookup (storeAll (dinsert m q.1 q.2) rest) o =
        ((rest.reverse.find? (fun p => p.1 == o)).map Prod.snd).or
          (dlookup (dinsert m q.1 q.2) o) := ih (dinsert m q.1 q.2)
    rw [show (List.foldl (fun acc p => dinsert acc p.1 p.2) (dinsert m q.1 q.2) rest) =
        storeAll (dinsert m q.1 q.2) rest from rfl, step]
    cases hfind : rest.reverse.find? (fun p => p.1 == o) with
    | some r => simp
    | none =>
      simp only [Option.map_none', Option.none_or, List.find?]
      rw [dlookup_dinsert]
      by_cases hq : (q.1 == o) = true
      · simp [hq]
      · simp [hq]

theorem foldl_stepPattern (line : String) (rxs : List RE) (m : Routes) :
    rxs.foldl (fun acc rx => stepPattern acc line rx) m =
      storeAll m (rxs.filterMap (patternPair line)) := by
  induction rxs generalizing m with
  | nil => simp [storeAll]
  | cons rx rest ih =>
    cases h : patternPair line rx with
    | none =>
      have hs : stepPattern m line rx = m := by simp [stepPattern, h]
      have hf : List.filterMap (patternPair line) (rx :: rest) =
          List.filterMap (patternPair line) rest := by
        simp [List.filterMap_cons, h]
      simp only [List.foldl_cons, hs, hf]
      exact ih m
    | some p =>
      have hs : stepPattern m line rx = dinsert m p.1 p.2 := by simp [stepPattern, h]
      have hf : List.filterMap (patternPair line) (rx :: rest) =
          p :: List.filterMap (patternPair line) rest := by
        simp [List.filterMap_cons, h]
      simp only [List.foldl_cons, hs, hf]
      have hstore : storeAll m (p :: List.filterMap (patternPair line) rest) =
          storeAll (dinsert m p.1 p.2) (List.filterMap (patternPair line) rest) := by
        simp [storeAll]
      rw [hstore]
      exact ih (dinsert m p.1 p.2)

theorem stepLine_eq (m : Routes) (raw : String) :
    stepLine m raw = storeAll m (linePairs raw) := by
  simp only [stepLine, linePairs]
  by_cases h : (pyStrip raw == "") = true
  · simp [h, storeAll]
  · simp [h, foldl_stepPattern]

theorem parse_routes_eq (text : String) :
    parse_routes text = storeAll [] (textPairs text) := by
  have main : ∀ (ls : List String) (m : Routes),
      ls.foldl stepLine m = storeAll m (ls.flatMap linePairs) := by
    intro ls
    induction ls with
    | nil => intro m; simp [storeAll]
    | cons l rest ih =>
      intro m
      simp only [List.foldl_cons, List.flatMap_cons]
      rw [stepLine_eq, ih]
      simp [storeAll, List.foldl_append]
  simpa [parse_routes, textPairs] using main (pySplitlines text) []

/-! ## Positivity of parsed pairs -/

theorem patternPair_pos {line : String} {rx : RE} {p : Int × Int}
    (h : patternPair line rx = some p) : 1 ≤ p.1 ∧ 1 ≤ p.2 := by
  unfold patternPair at h
  split at h
  · cases h
  · split at h
    · cases h
    · split at h
      · cases h
      · split at h
        · cases h
        · split at h
          · rename_i hcond
            cases h
            obtain ⟨a, b⟩ := hcond
            exact ⟨by omega, by omega⟩
          · cases h

theorem linePairs_pos {raw : String} {p : Int × Int} (h : p ∈ linePairs raw) :
    1 ≤ p.1 ∧ 1 ≤ p.2 := by
  simp only [linePairs] at h
  split at h
  · simp at h
  · rcases List.mem_filterMap.mp h with ⟨rx, _, hpp⟩
    exact patternPair_pos hpp

theorem textPairs_pos {text : String} {p : Int × Int} (h : p ∈ textPairs text) :
    1 ≤ p.1 ∧ 1 ≤ p.2 := by
  rcases List.mem_flatMap.mp h with ⟨raw, _, hp⟩
  exact linePairs_pos hp

theorem parse_routes_pos {text : String} {p : Int × Int}
    (h : p ∈ parse_routes text) : 1 ≤ p.1 ∧ 1 ≤ p.2 := by
  rw [parse_routes_eq] at h
  rcases mem_storeAll h with h1 | h1
  · simp at h1
  · exact textPairs_pos h1

/-! ## The exception-threaded parser never raises -/

theorem stepPatternExc_ok (m : Routes) (line : String) (rx : RE) :
    stepPatternExc m line rx = Except.ok (stepPattern m line rx) := by
  unfold stepPatternExc stepPattern patternPair pyIntExc
  cases hx : rxExtract rx line with
  | none => simp [hx]
  | some pr =>
    obtain ⟨out_s, in_s⟩ := pr
    simp only [hx]
    cases h1 : pyIntOpt out_s with
    | none => simp [h1]
    | some out_id =>
      simp only [h1]
      by_cases h2 : (pyUpper in_s == "AUTO") = true
      · simp [h2]
      · simp only [h2, if_false, Bool.false_eq_true]
        cases h3 : pyIntOpt in_s with
        | none => simp [h3]
        | some in_id =>
          simp only [h3]
          by_cases h4 : 0 < out_id ∧ 0 < in_id
          · simp [h4]
          · simp [h4]

theorem foldPatternsExc_ok (line : String) (rxs : List RE) (m : Routes) :
    foldPatternsExc line m rxs =
      Except.ok (rxs.foldl (fun acc rx => stepPattern acc line rx) m) := by
  induction rxs generalizing m with
  | nil => rfl
  | cons rx rest ih =>
    simp only [foldPatternsExc, stepPatternExc_ok, List.foldl_cons]
    exact ih (stepPattern m line rx)

theorem stepLineExc_ok (m : Routes) (raw : String) :
    stepLineExc m raw = Except.ok (stepLine m raw) := by
  unfold stepLineExc stepLine
  by_cases h : (pyStrip raw == "") = true
  · simp [h]
  · simp [h, foldPatternsExc_ok]

theorem foldLinesExc_ok (ls : List String) (m : Routes) :
    foldLinesExc m ls = Except.ok (ls.foldl stepLine m) := by
  induction ls generalizing m with
  | nil => rfl
  | cons l rest ih =>
    simp only [foldLinesExc, stepLineExc_ok, List.foldl_cons]
    exact ih (stepLine m l)

/-! ## Client-level invariants -/

theorem bulkGo_pos {tr : Transport} {cmds : List String} {p : Int × Int}
    (h : p ∈ bulkGo tr cmds) : 1 ≤ p.1 ∧ 1 ≤ p.2 := by
  induction cmds with
  | nil => simp [bulkGo] at h
  | cons c rest ih =>
    unfold bulkGo at h
    cases htr : tr c with
    | error e =>
      rw [htr] at h
      exact ih h
    | ok text =>
      rw [htr] at h
      by_cases hemp : (parse_routes text).isEmpty = true
      · simp only [hemp, if_true] at h
        exact ih h
      · simp only [hemp, if_false] at h
        exact parse_routes_pos h

theorem get_routes_bulk_pos {tr : Transport} {p : Int × Int}
    (h : p ∈ get_routes_bulk tr) : 1 ≤ p.1 ∧ 1 ≤ p.2 :=
  bulkGo_pos h

theorem getRouteGo_pos {tr : Transport} {output : Int} {cmds : List String} {v : Int}
    (h : (getRouteGo tr output cmds).1 = some v) : 1 ≤ v := by
  induction cmds with
  | nil => simp [getRouteGo] at h
  | cons c rest ih =>
    unfold getRouteGo at h
    cases htr : tr c with
    | error e =>
      rw [htr] at h
      exact ih h
    | ok text =>
      rw [htr] at h
      cases hl : dlookup (parse_routes text) output with
      | some w =>
        simp only [hl] at h
        cases h
        exact (parse_routes_pos (dlookup_mem hl)).2
      | none =>
        simp only [hl] at h
        exact ih h

theorem get_route_for_output_pos {tr : Transport} {output v : Int}
    (h : (get_route_for_output tr output).1 = some v) : 1 ≤ v := by
  unfold get_route_for_output at h
  by_cases ho : output ≤ 0
  · simp [ho] at h
  · simp only [ho, if_false] at h
    exact getRouteGo_pos h

/-! ## Gap-filling loop lemmas -/

theorem gapFill_mem {tr : Transport} {cur : Routes} {l : List Int} {p : Int × Int}
    (h : p ∈ (gapFill tr cur l).1) :
    p ∈ cur ∨ (p.1 ∈ l ∧ (get_route_for_output tr p.1).1 = some p.2) := by
  induction l generalizing cur with
  | nil => exact Or.inl (by simpa [gapFill] using h)
  | cons o rest ih =>
    unfold gapFill at h
    by_cases hm : dmem cur o = true
    · rw [if_pos hm] at h
      rcases ih h with h1 | ⟨h2, h3⟩
      · exact Or.inl h1
      · exact Or.inr ⟨List.mem_cons_of_mem _ h2, h3⟩
    · rw [if_neg hm] at h
      cases hq : (get_route_for_output tr o).1 with
      | some v =>
        rw [hq] at h
        rcases ih h with h1 | ⟨h2, h3⟩
        · rcases mem_dinsert h1 with h4 | h4
          · exact Or.inl h4
          · refine Or.inr ⟨?_, ?_⟩
            · rw [h4]; exact List.mem_cons_self _ _
            · rw [h4]
              simpa [h4] using hq
        · exact Or.inr ⟨List.mem_cons_of_mem _ h2, h3⟩
      | none =>
        rw [hq] at h
        rcases ih h with h1 | ⟨h2, h3⟩
        · exact Or.inl h1
        · exact Or.inr ⟨List.mem_cons_of_mem _ h2, h3⟩

theorem gapFill_lookup_of_dmem {tr : Transport} {cur : Routes} {l : List Int} {o : Int}
    (h : dmem cur o = true) :
    dlookup (gapFill tr cur l).1 o = dlookup cur o := by
  induction l generalizing cur with
  | nil => simp [gapFill]
  | cons q rest ih =>
    unfold gapFill
    by_cases hm : dmem cur q = true
    · rw [if_pos hm]
      exact ih h
    · rw [if_neg hm]
      have hqo : ¬ (q = o) := by
        intro he
        rw [he] at hm
        exact hm h
      cases hq : (get_route_for_output tr q).1 with
      | some v =>
        have h2 : dmem (dinsert cur q v) o = true := by
          rw [dmem_dinsert]
          simp [h]
        have h3 := @ih (dinsert cur q v) h2
        simp only [h3]
        rw [dlookup_dinsert]
        have : (q == o) = false := by
          rw [beq_eq_false_iff_ne]; exact hqo
        simp [this]
      | none => exact ih h

theorem gapFill_lookup_filled {tr : Transport} {cur : Routes} {l : List Int} {o v : Int}
    (hin : o ∈ l) (hm : dmem cur o = false)
    (hq : (get_route_for_output tr o).1 = some v) :
    dlookup (gapFill tr cur l).1 o = some v := by
  induction l generalizing cur with
  | nil => simp at hin
  | cons q rest ih =>
    unfold gapFill
    by_cases hmq : dmem cur q = true
    · rw [if_pos hmq]
      have hqo : ¬ (q = o) := by
        intro he; rw [he] at hmq; rw [hmq] at hm; cases hm
      have hin2 : o ∈ rest := by
        rcases List.mem_cons.mp hin with h1 | h1
        · exact absurd h1.symm hqo
        · exact h1
      exact ih hin2 hm
    · rw [if_neg hmq]
      by_cases hqo : q = o
      · subst hqo
        rw [hq]
        have h2 : dmem (dinsert cur q v) q = true := by
          rw [dmem_dinsert]; simp
        rw [gapFill_lookup_of_dmem h2, dlookup_dinsert]
        simp
      · have hin2 : o ∈ rest := by
          rcases List.mem_cons.mp hin with h1 | h1
          · exact absurd h1.symm hqo
          · exact h1
        cases hqv : (get_route_for_output tr q).1 with
        | some w =>
          have hm2 : dmem (dinsert cur q w) o = false := by
            rw [dmem_dinsert]
            have : (q == o) = false := by rw [beq_eq_false_iff_ne]; exact hqo
            simp [this, hm]
          exact ih hin2 hm2
        | none => exact ih hin2 hm

theorem gapFill_queried {tr : Transport} (l : List Int) (cur : Routes)
    (hnd : l.Nodup) :
    (gapFill tr cur l).2 = l.filter (fun o => !(dmem cur o)) := by
  induction l generalizing cur with
  | nil => simp [gapFill]
  | cons q rest ih =>
    have hnd2 : rest.Nodup := (List.nodup_cons.mp hnd).2
    have hq_not : q ∉ rest := (List.nodup_cons.mp hnd).1
    unfold gapFill
    by_cases hm : dmem cur q = true
    · rw [if_pos hm]
      rw [ih cur hnd2]
      simp [List.filter_cons, hm]
    · rw [if_neg hm]
      have hfilter : rest.filter (fun o => !(dmem cur o)) =
          rest.filter (fun o => !(dmem (dinsert cur q ((get_route_for_output tr q).1.getD 0)) o)) := by
        apply List.filter_congr
        intro o ho
        have hqo : (q == o) = false := by
          rw [beq_eq_false_iff_ne]
          intro he
          exact hq_not (he ▸ ho)
        rw [dmem_dinsert, hqo]
        simp
      cases hqv : (get_route_for_output tr q).1 with
      | some v =>
        have h2 := ih (dinsert cur q v) hnd2
        simp only [h2]
        have hv : ((get_route_for_output tr q).1.getD 0) = v := by simp [hqv]
        rw [hv] at hfilter
        simp [List.filter_cons, hm, ← hfilter]
      | none =>
        have h2 := ih cur hnd2
        simp only [h2]
        simp [List.filter_cons, hm]

/-! ## Range lemmas -/

theorem pyRange1_nodup (n : Int) : (pyRange1 n).Nodup := by
  unfold pyRange1
  have hinj : Function.Injective (fun k : Nat => (k : Int) + 1) := by
    intro a b hab
    simp only at hab
    omega
  exact List.Nodup.map hinj (List.nodup_range n.toNat)

theorem mem_pyRange1 {n o : Int} (h : o ∈ pyRange1 n) : 1 ≤ o ∧ o ≤ n := by
  unfold pyRange1 at h
  rcases List.mem_map.mp h with ⟨k, hk, rfl⟩
  have := List.mem_range.mp hk
  omega

/-! ## Behaviour under a failing transport -/

/-- A transport whose every send raises a connection failure. -/
def connFailTransport : Transport :=
  fun _ => .error .connectionFailure

theorem bulkGo_connFail (l : List String) : bulkGo connFailTransport l = [] := by
  induction l with
  | nil => rfl
  | cons c rest ih =>
    unfold bulkGo connFailTransport
    simpa using ih

theorem getRouteGo_connFail (output : Int) (l : List String) :
    getRouteGo connFailTransport output l = (none, l) := by
  induction l with
  | nil => rfl
  | cons c rest ih =>
    have hstep : getRouteGo connFailTransport output (c :: rest) =
        ((getRouteGo connFailTransport output rest).1,
          c :: (getRouteGo connFailTransport output rest).2) := rfl
    rw [hstep, ih]

theorem get_route_for_output_connFail (output : Int) :
    (get_route_for_output connFailTransport output).1 = none := by
  unfold get_route_for_output
  by_cases h : output ≤ 0
  · simp [h]
  · simp [h, getRouteGo_connFail]

theorem gapFill_connFail (l : List Int) :
    gapFill connFailTransport [] l = ([], l) := by
  induction l with
  | nil => rfl
  | cons o rest ih =>
    unfold gapFill
    have h1 : dmem ([] : Routes) o = false := rfl
    rw [if_neg (by simp [h1])]
    rw [get_route_for_output_connFail]
    simp [ih]

theorem pyRange1_nonpos {n : Int} (h : n ≤ 0) : pyRange1 n = [] := by
  unfold pyRange1
  have h2 : n.toNat = 0 := by omega
  simp [h2]

/-! ## `get_routes_bulk` returns the first non-empty parse -/

theorem bulkGo_firstNonEmpty (tr : Transport) (resp : String → String)
    (l : List String) (h : ∀ c ∈ l, tr c = .ok (resp c)) :
    bulkGo tr l = spec_firstNonEmptyParse (l.map (fun c => parse_routes (resp c))) := by
  induction l with
  | nil => rfl
  | cons c rest ih =>
    unfold bulkGo
    rw [h c (List.mem_cons_self c rest)]
    simp only [List.map_cons, spec_firstNonEmptyParse]
    by_cases he : (parse_routes (resp c)).isEmpty = true
    · simp only [he, if_true]
      exact ih (fun d hd => h d (List.mem_cons_of_mem _ hd))
    · simp only [he, if_false, Bool.false_eq_true]

/-! ## Concrete fixtures used by witnesses and counterexamples -/

/-- The spec's end-to-end bulk-response fixture. -/
def fixtureText : String :=
  "OUT 001 FROM IN 002\nOUT 002 FROM IN AUTO\n"

/-- Same text, except the `AUTO` line names an output that an earlier
line already routed. -/
def autoOverrideText : String :=
  "OUT 001 FROM IN 002\nOUT 001 FROM IN AUTO\n"

/-- A transport that always answers with a route for output 5 (a device
reporting an output beyond the configured count). -/
def overflowTransport : Transport :=
  fun _ => .ok "OUT 005 FROM IN 002"

/-- The spec's gap-filling scenario: bulk covers outputs 1 and 3 of a
3-output device; the per-output query for output 2 resolves it. -/
def gapTransport : Transport :=
  fun c =>
    if c == "OUT 000 STATUS" then .ok "OUT 001 FROM IN 002\nOUT 003 FROM IN 001"
    else if c == "OUT 002 STATUS" then .ok "OUT 002 FROM IN 004"
    else .ok ""

/-- Responses for the bulk-priority witness: the first spelling parses
to nothing, the second to the fixture's routes. -/
def bulkWitnessResp : String → String :=
  fun c => if c == "OUT 000 STATUS" then "no routes here" else fixtureText

/-- Transport that always succeeds, answering `bulkWitnessResp`. -/
def bulkWitnessTransport : Transport :=
  fun c => .ok (bulkWitnessResp c)

/-- A transport that always succeeds with an empty reply. -/
def quietTransport : Transport :=
  fun _ => .ok ""

/-! ## Claims -/

/-- Claim C1, counterexample.  The claim demands that a line whose input
token is `AUTO` leaves its output id absent from the result.  In the
text `"OUT 001 FROM IN 002\nOUT 001 FROM IN AUTO\n"` the second line
matches the first registered pattern with input token `AUTO` and output
id 1, yet the parse still maps output 1 (to 2, from the first line):
`_parse_routes` skips an `AUTO` line without deleting anything. -/
theorem c1_counterexample :
    pySplitlines autoOverrideText = ["OUT 001 FROM IN 002", "OUT 001 FROM IN AUTO"] ∧
    rxExtract routeRe1 "OUT 001 FROM IN AUTO" = some ("1", "AUTO") ∧
    dlookup (parse_routes autoOverrideText) 1 = some 2 :=
  ⟨by decide, by decide, by decide⟩

/-- Claim C1 (amended): the value stored for an output is the one from
the last pattern match (in line order, then pattern order) that
produced a numeric, positive pair for it — an output none of whose
lines produced such a pair is absent; a pattern match whose input token
is `AUTO` (any case) stores nothing (but removes nothing either); and
the fixture `"OUT 001 FROM IN 002\nOUT 002 FROM IN AUTO\n"` parses to
exactly `{1: 2}`. -/
theorem c1_parse_routes_amended :
    (∀ (text : String) (o : Int),
        dlookup (parse_routes text) o =
          ((textPairs text).reverse.find? (fun p => p.1 == o)).map Prod.snd) ∧
    (∀ (m : Routes) (line : String) (rx : RE) (out_s in_s : String),
        rxExtract rx line = some (out_s, in_s) → pyUpper in_s = "AUTO" →
        stepPattern m line rx = m) ∧
    parse_routes fixtureText = [(1, 2)] := by
  refine ⟨?_, ?_, by decide⟩
  · intro text o
    rw [parse_routes_eq, dlookup_storeAll]
    simp [dlookup]
  · intro m line rx out_s in_s h1 h2
    have hbeq : (pyUpper in_s == "AUTO") = true := by
      rw [h2]
      rfl
    unfold stepPattern patternPair
    rw [h1]
    cases hint : pyIntOpt out_s with
    | none => simp [hint]
    | some out_id => simp [hint, hbeq]

/-- Claim C1, witness for the amended theorem: the `AUTO` line of the
fixture stores nothing into a dict it is folded over. -/
theorem c1_witness :
    stepPattern [(7, 9)] "OUT 002 FROM IN AUTO" routeRe1 = [(7, 9)] :=
  c1_parse_routes_amended.2.1 [(7, 9)] "OUT 002 FROM IN AUTO" routeRe1 "2" "AUTO"
    (by decide) (by decide)

/-- Claim C2: `_parse_routes` is total — with every potentially-raising
operation (the `int()` conversions) made explicit, it returns a
successful mapping on every input string, never an exception; the
mapping is the one the pure parser computes (worst case empty). -/
theorem c2_parse_routes_total (text : String) :
    parse_routesExc text = Except.ok (parse_routes text) := by
  unfold parse_routesExc parse_routes
  exact foldLinesExc_ok (pySplitlines text) []

/-- Claim C3: for ids ≥ 1, `switch_route` sends exactly the command
`"OUT " ++ pad3 output ++ " FR " ++ pad3 input_` — both ids zero-padded
to three digits, in the spaced form — and for a non-positive id it
fails with `ValueError` having sent nothing. -/
theorem c3_switch_route_format (tr : Transport) (output input_ : Int) :
    (1 ≤ output → 1 ≤ input_ →
      (switch_route tr output input_).2 =
        ["OUT " ++ pad3 output ++ " FR " ++ pad3 input_]) ∧
    (output < 1 ∨ input_ < 1 →
      (∃ msg, (switch_route tr output input_).1 = Except.error (.valueError msg)) ∧
      (switch_route tr output input_).2 = []) := by
  constructor
  · intro h1 h2
    unfold switch_route
    rw [if_neg (by omega), if_neg (by omega)]
    cases htr : tr ("OUT " ++ pad3 output ++ " FR " ++ pad3 input_) <;> simp [htr]
  · intro h
    unfold switch_route
    by_cases ho : output ≤ 0
    · rw [if_pos ho]
      exact ⟨⟨_, rfl⟩, rfl⟩
    · have hi : input_ ≤ 0 := by omega
      rw [if_neg ho, if_pos hi]
      exact ⟨⟨_, rfl⟩, rfl⟩

/-- Claim C3, witness: `switch_route(2, 5)` sends `"OUT 002 FR 005"`. -/
theorem c3_witness :
    (switch_route quietTransport 2 5).2 = ["OUT 002 FR 005"] := by
  have h := (c3_switch_route_format quietTransport 2 5).1 (by decide) (by decide)
  exact h.trans (by decide)

/-- Claim C4: when every bulk spelling gets a response,
`get_routes_bulk` returns the parse of the first spelling (in the fixed
priority order) whose parse is non-empty, and the empty mapping — still
a successful value, the return type has no failure — when every parse
is empty. -/
theorem c4_bulk_first_nonempty (tr : Transport) (resp : String → String)
    (h : ∀ c ∈ bulkCommands, tr c = .ok (resp c)) :
    get_routes_bulk tr =
      spec_firstNonEmptyParse (bulkCommands.map (fun c => parse_routes (resp c))) :=
  bulkGo_firstNonEmpty tr resp bulkCommands h

/-- Claim C4, witness: the first spelling's reply parses to nothing, so
the second spelling's parse (the fixture's `{1: 2}`) is returned. -/
theorem c4_witness :
    get_routes_bulk bulkWitnessTransport = [(1, 2)] := by
  have h := c4_bulk_first_nonempty bulkWitnessTransport bulkWitnessResp (fun c _ => rfl)
  exact h.trans (by decide)

/-- Claim C5, counterexample.  The claim says a connection failure
raised by the Transport propagates through the Client and aborts the
poll cycle with a typed update failure.  With a transport whose every
send raises `ConnectionFailure` and 3 configured outputs, the cycle
instead completes successfully with an empty snapshot (after per-output
queries for 1, 2, 3, all of which also fail silently): both client
operations catch `Exception` per command spelling and fall through. -/
theorem c5_counterexample :
    coordinatorUpdate connFailTransport 3 = Except.ok ([], [1, 2, 3]) := rfl

/-- Claim C5 (amended): transport failures during a poll cycle are
absorbed inside the Client (`get_routes_bulk` and
`get_route_for_output` catch every exception per command spelling and
fall through), so a poll cycle always completes successfully — in
particular, under an always-failing transport it emits the empty
snapshot after querying every configured output — rather than aborting
with a typed update failure. -/
theorem c5_failures_absorbed_amended :
    (∀ (tr : Transport) (n : Int), ∃ r, coordinatorUpdate tr n = Except.ok r) ∧
    (∀ n : Int, coordinatorUpdate connFailTransport n = Except.ok ([], pyRange1 n)) := by
  constructor
  · intro tr n
    unfold coordinatorUpdate
    by_cases h : 0 < n ∧ ((get_routes_bulk tr).length : Int) < n
    · exact ⟨_, by rw [if_pos h]⟩
    · exact ⟨_, by rw [if_neg h]⟩
  · intro n
    have hb : get_routes_bulk connFailTransport = [] := bulkGo_connFail _
    unfold coordinatorUpdate
    rw [hb]
    by_cases hn : 0 < n
    · rw [if_pos ⟨hn, by simpa using hn⟩, gapFill_connFail]
    · rw [if_neg (by omega), pyRange1_nonpos (by omega)]

/-- Claim C6: on a poll cycle whose bulk parse covers fewer outputs
than configured, the gap-filling loop queries exactly the outputs 1 to
`num_outputs` missing from the bulk parse, in ascending order (the
query list is the ascending range filtered to missing ids, and has no
duplicates), never queries an output the bulk parse already covers,
merges every resolved per-output value into the emitted snapshot, and
leaves bulk entries intact. -/
theorem c6_gap_filling (tr : Transport) (n : Int) (routes : Routes) (qs : List Int)
    (h : coordinatorUpdate tr n = Except.ok (routes, qs))
    (hlt : ((get_routes_bulk tr).length : Int) < n) :
    qs = (pyRange1 n).filter (fun o => !(dmem (get_routes_bulk tr) o)) ∧
    qs.Nodup ∧
    (∀ o, dmem (get_routes_bulk tr) o = true → o ∉ qs) ∧
    (∀ o v, o ∈ qs → (get_route_for_output tr o).1 = some v →
        dlookup routes o = some v) ∧
    (∀ o, dmem (get_routes_bulk tr) o = true →
        dlookup routes o = dlookup (get_routes_bulk tr) o) := by
  have hn : 0 < n := by
    have h0 : (0 : Int) ≤ ((get_routes_bulk tr).length : Int) := Int.ofNat_nonneg _
    omega
  unfold coordinatorUpdate at h
  rw [if_pos ⟨hn, hlt⟩] at h
  have hpair : gapFill tr (get_routes_bulk tr) (pyRange1 n) = (routes, qs) := by
    injection h
  have hroutes : (gapFill tr (get_routes_bulk tr) (pyRange1 n)).1 = routes := by
    rw [hpair]
  have hqs : (gapFill tr (get_routes_bulk tr) (pyRange1 n)).2 = qs := by
    rw [hpair]
  have hq : qs = (pyRange1 n).filter (fun o => !(dmem (get_routes_bulk tr) o)) := by
    rw [← hqs, gapFill_queried (pyRange1 n) (get_routes_bulk tr) (pyRange1_nodup n)]
  refine ⟨hq, ?_, ?_, ?_, ?_⟩
  · rw [hq]
    exact (pyRange1_nodup n).filter _
  · intro o hmem hin
    rw [hq] at hin
    have := (List.mem_filter.mp hin).2
    rw [hmem] at this
    cases this
  · intro o v hin hv
    rw [hq] at hin
    have h1 := List.mem_filter.mp hin
    have h2 : dmem (get_routes_bulk tr) o = false := by
      rcases h3 : dmem (get_routes_bulk tr) o
      · rfl
      · rw [h3] at h1
        simpa using h1.2
    rw [← hroutes]
    exact gapFill_lookup_filled h1.1 h2 hv
  · intro o hmem
    rw [← hroutes]
    exact gapFill_lookup_of_dmem hmem

/-- Claim C6, witness: the spec's scenario — bulk covers outputs 1 and
3 of a 3-output device; exactly output 2 is queried and merged. -/
theorem c6_witness :
    ([2] : List Int) =
      (pyRange1 3).filter (fun o => !(dmem (get_routes_bulk gapTransport) o)) ∧
    ([2] : List Int).Nodup ∧
    (∀ o, dmem (get_routes_bulk gapTransport) o = true → o ∉ ([2] : List Int)) ∧
    (∀ o v, o ∈ ([2] : List Int) → (get_route_for_output gapTransport o).1 = some v →
        dlookup [(1, 2), (3, 1), (2, 4)] o = some v) ∧
    (∀ o, dmem (get_routes_bulk gapTransport) o = true →
        dlookup [(1, 2), (3, 1), (2, 4)] o = dlookup (get_routes_bulk gapTransport) o) :=
  c6_gap_filling gapTransport 3 [(1, 2), (3, 1), (2, 4)] [2] rfl (by decide)

set_option maxRecDepth 4000

/-- Claim C7: `_send_and_read` wraps open → write → read → close in the
client's lock, acquiring before any transport I/O and releasing after
the close on every path (the read step may be skipped on failure, the
close and release never are); consequently, in every lock-respecting
interleaving of two concurrent executions, one execution's connection
closes before the other's opens — device operations never overlap. -/
theorem c7_exclusive_slot :
    (∀ (t : TaskId) (ok : Bool),
        evBefore (.acquire t) (.openConn t) (sendSteps t ok) = true ∧
        evBefore (.closeConn t) (.release t) (sendSteps t ok) = true) ∧
    (∀ (ok1 ok2 : Bool) (tr : List Ev),
        tr ∈ merges (sendSteps .first ok1) (sendSteps .second ok2) →
        lockRespecting none tr = true → serialized tr = true) := by
  constructor
  · intro t ok
    cases t <;> cases ok <;> exact ⟨by decide, by decide⟩
  · intro ok1 ok2 tr htr hlock
    have hall : (merges (sendSteps .first ok1) (sendSteps .second ok2)).all
        (fun t => !(lockRespecting none t) || serialized t) = true := by
      cases ok1 <;> cases ok2 <;> decide
    have h2 := List.all_eq_true.mp hall tr htr
    simp only [Bool.or_eq_true, Bool.not_eq_true'] at h2
    rcases h2 with h3 | h3
    · rw [hlock] at h3
      cases h3
    · exact h3

/-- Claim C7, witness: running the two operations back to back is a
lock-respecting interleaving, and it is serialized. -/
theorem c7_witness :
    serialized (sendSteps .first true ++ sendSteps .second true) = true := by
  refine c7_exclusive_slot.2 true true
    (sendSteps .first true ++ sendSteps .second true) ?_ ?_ <;> decide

/-- Claim C8: every pair stored anywhere in the system has both ids
≥ 1 — in any `_parse_routes` result, any `get_routes_bulk` result, any
value resolved by `get_route_for_output`, and any snapshot emitted by a
full coordinator cycle. -/
theorem c8_ids_positive :
    (∀ (text : String) (p : Int × Int), p ∈ parse_routes text →
        1 ≤ p.1 ∧ 1 ≤ p.2) ∧
    (∀ (tr : Transport) (p : Int × Int), p ∈ get_routes_bulk tr →
        1 ≤ p.1 ∧ 1 ≤ p.2) ∧
    (∀ (tr : Transport) (o v : Int), (get_route_for_output tr o).1 = some v →
        1 ≤ v) ∧
    (∀ (tr : Transport) (n : Int) (routes : Routes) (qs : List Int) (p : Int × Int),
        coordinatorUpdate tr n = Except.ok (routes, qs) → p ∈ routes →
        1 ≤ p.1 ∧ 1 ≤ p.2) := by
  refine ⟨?_, ?_, ?_, ?_⟩
  · intro text p hp
    exact parse_routes_pos hp
  · intro tr p hp
    exact get_routes_bulk_pos hp
  · intro tr o v hv
    exact get_route_for_output_pos hv
  · intro tr n routes qs p h hp
    unfold coordinatorUpdate at h
    by_cases hguard : 0 < n ∧ ((get_routes_bulk tr).length : Int) < n
    · rw [if_pos hguard] at h
      have hpair : gapFill tr (get_routes_bulk tr) (pyRange1 n) = (routes, qs) := by
        injection h
      have hroutes : routes = (gapFill tr (get_routes_bulk tr) (pyRange1 n)).1 := by
        rw [hpair]
      rw [hroutes] at hp
      rcases gapFill_mem hp with h1 | ⟨h2, h3⟩
      · exact get_routes_bulk_pos h1
      · have hb := mem_pyRange1 h2
        exact ⟨by omega, get_route_for_output_pos h3⟩
    · rw [if_neg hguard] at h
      have h2 : (get_routes_bulk tr, ([] : List Int)) = (routes, qs) := by
        injection h
      have h3 : get_routes_bulk tr = routes := by
        have h4 := congrArg Prod.fst h2
        simpa using h4
      rw [← h3] at hp
      exact get_routes_bulk_pos hp

/-- Claim C8, witness: the pair (1, 2) of the fixture's parse has both
ids ≥ 1. -/
theorem c8_witness :
    1 ≤ (((1 : Int), (2 : Int))).1 ∧ 1 ≤ (((1 : Int), (2 : Int))).2 :=
  c8_ids_positive.1 fixtureText (1, 2) (by decide)

/-- Claim C9, counterexample.  The claim says no key of an emitted
snapshot exceeds the configured output count.  With 3 configured
outputs and a device whose every reply reads `"OUT 005 FROM IN 002"`,
the cycle emits the snapshot `{5: 2}` (after per-output queries for
1, 2, 3, none of which resolves): key 5 > 3 — `_parse_routes` does not
clamp output ids to `num_outputs`. -/
theorem c9_counterexample :
    coordinatorUpdate overflowTransport 3 = Except.ok ([(5, 2)], [1, 2, 3]) ∧
    dlookup [(5, 2)] 5 = some 2 ∧ (3 : Int) < 5 :=
  ⟨rfl, by decide, by decide⟩

/-- Claim C9 (amended): every entry of an emitted snapshot either comes
from the bulk parse — whose keys are positive but not bounded by the
configured count — or was added by gap-filling, in which case its key
lies in 1..`num_outputs`. -/
theorem c9_snapshot_keys_amended (tr : Transport) (n : Int) (routes : Routes)
    (qs : List Int) (h : coordinatorUpdate tr n = Except.ok (routes, qs))
    (p : Int × Int) (hp : p ∈ routes) :
    p ∈ get_routes_bulk tr ∨ (1 ≤ p.1 ∧ p.1 ≤ n) := by
  unfold coordinatorUpdate at h
  by_cases hguard : 0 < n ∧ ((get_routes_bulk tr).length : Int) < n
  · rw [if_pos hguard] at h
    have hpair : gapFill tr (get_routes_bulk tr) (pyRange1 n) = (routes, qs) := by
      injection h
    have hroutes : routes = (gapFill tr (get_routes_bulk tr) (pyRange1 n)).1 := by
      rw [hpair]
    rw [hroutes] at hp
    rcases gapFill_mem hp with h1 | ⟨h2, _⟩
    · exact Or.inl h1
    · exact Or.inr (mem_pyRange1 h2)
  · rw [if_neg hguard] at h
    have h2 : (get_routes_bulk tr, ([] : List Int)) = (routes, qs) := by
      injection h
    have h3 : get_routes_bulk tr = routes := by
      have h4 := congrArg Prod.fst h2
      simpa using h4
    rw [← h3] at hp
    exact Or.inl hp

/-- Claim C9, witness: in the overflowing scenario the entry (5, 2)
is accounted for by the bulk parse. -/
theorem c9_witness :
    ((5 : Int), (2 : Int)) ∈ get_routes_bulk overflowTransport ∨
      (1 ≤ (((5 : Int), (2 : Int))).1 ∧ (((5 : Int), (2 : Int))).1 ≤ 3) :=
  c9_snapshot_keys_amended overflowTransport 3 [(5, 2)] [1, 2, 3] rfl (5, 2) (by decide)

/-- Claim C10: for a non-positive output id, `get_route_for_output`
returns `None` immediately — no exception in its type, and the list of
commands sent is empty, so no device query happens (unlike
`switch_route`, which raises `ValueError`). -/
theorem c10_nonpositive_output (tr : Transport) (output : Int) (h : output ≤ 0) :
    get_route_for_output tr output = (none, []) := by
  unfold get_route_for_output
  rw [if_pos h]

/-- Claim C10, witness: output 0 yields `None` with nothing sent. -/
theorem c10_witness : get_route_for_output quietTransport 0 = (none, []) :=
  c10_nonpositive_output quietTransport 0 (by decide)
